import Mathlib

/-!
# Car Lane Game: simulation core

A shallow embedding of the simulation logic of `src/main.cpp` (the PRNG `myRand`, the
enemy-car pool, `processInput`, the game-logic block of the render loop and
`checkCollision`), followed by theorems about it.

Modelling conventions.
* `float` values are rationals (`ℚ`), and the program is given two readings.
  In the exact reading (`spawnScan`, `spawnBlock`, `updateCar`, `updateCars`, `checkCollision`,
  `gameLogic`, `tick`) every float operation is the exact rational operation and the literal
  `1.2f` is `6/5`; this is the semantics of the statements made "under exact arithmetic".
  In the binary32 reading (`spawnScanF`, `spawnBlockF`, `updateCarF`, `updateCarsF`) every
  float literal and every float operation is rounded to the nearest IEEE-754 binary32 value,
  ties to even, by `toFloat`; this is what the compiled program computes, and it is used to
  decide statements whose truth depends on rounding.
* `unsigned int seed` is a natural number reduced modulo `2^32` after every update.
* The array `EnemyCar enemyCars[10]` is a function `Fin 10 → EnemyCar`; a loop
  `for (int i = 0; i < 10; i++)` is a recursion over the index list `slots = [0, …, 9]`.
* `glfwGetKey(..) == GLFW_PRESS` is a Boolean per key (`GLFW_RELEASE` is its negation); the
  `static bool` latches of `processInput` are the record `KeyLatch`.
* Rendering, shader set-up and the window-close flag do not touch the simulation state and are
  not modelled.
-/

namespace CarLaneGame

/-! ## Data model -/

/-- The record `struct EnemyCar { float x, y; float speed; bool active; }`. -/
structure EnemyCar where
  x : ℚ
  y : ℚ
  speed : ℚ
  active : Bool
deriving DecidableEq

/-- The array `EnemyCar enemyCars[10]`. -/
abbrev Pool := Fin 10 → EnemyCar

/-- The index range of every `for (int i = 0; i < 10; i++)` loop, in iteration order. -/
def slots : List (Fin 10) := [0, 1, 2, 3, 4, 5, 6, 7, 8, 9]

/-- The global `float playerY = -0.7f`. -/
def playerY : ℚ := -7/10

/-- The global `float carWidth = 0.15f`. -/
def carWidth : ℚ := 15/100

/-- The global `float carHeight = 0.25f`. -/
def carHeight : ℚ := 25/100

/-- The table `float lanePositions[3] = {-0.5f, 0.0f, 0.5f}`. An index outside `0..2` (never
read by the program: the lane stays in `0..2` and the spawn index is `myRand() % 3`) is given the
value `0`. -/
def lanePositions (i : Int) : ℚ :=
  if i = 0 then -1/2 else if i = 1 then 0 else if i = 2 then 1/2 else 0

/-- The mutable globals of the simulation: `playerLane`, `enemyCars`, `enemySpawnTimer`,
`enemySpawnDelay`, `gameOver`, `gameStarted` and the PRNG `seed`. -/
structure Game where
  playerLane : Int
  enemyCars : Pool
  enemySpawnTimer : ℚ
  enemySpawnDelay : ℚ
  gameOver : Bool
  gameStarted : Bool
  seed : Nat

/-- The `static bool spacePressed, aPressed, dPressed` locals of `processInput`. -/
structure KeyLatch where
  spacePressed : Bool
  aPressed : Bool
  dPressed : Bool
deriving DecidableEq

/-- The key states sampled in one frame: `true` is `GLFW_PRESS`, `false` is `GLFW_RELEASE`. -/
structure Keys where
  space : Bool
  a : Bool
  d : Bool
deriving DecidableEq

/-! ## PRNG -/

/-- The seed update `seed = seed * 1103515245 + 12345` on a 32-bit `unsigned int`. -/
def nextSeed (seed : Nat) : Nat := (seed * 1103515245 + 12345) % 2 ^ 32

/-- The function `myRand`: updates the seed, then returns `(seed / 65536) % 32768`.
The result is the pair (returned value, new seed). -/
def myRand (seed : Nat) : Nat × Nat :=
  let seed1 := nextSeed seed
  ((seed1 / 65536) % 32768, seed1)

/-- The values returned by `n` successive calls of `myRand`, first call first. -/
def myRandSeq : Nat → Nat → List Nat
  | 0, _ => []
  | n + 1, seed => (myRand seed).1 :: myRandSeq n (myRand seed).2

/-! ## Collision test -/

/-- The function `checkCollision`. -/
def checkCollision (x1 y1 w1 h1 x2 y2 w2 h2 : ℚ) : Bool :=
  decide (x1 - w1 / 2 < x2 + w2 / 2) && decide (x1 + w1 / 2 > x2 - w2 / 2) &&
    decide (y1 - h1 / 2 < y2 + h2 / 2) && decide (y1 + h1 / 2 > y2 - h2 / 2)

/-! ## Input handling (`processInput`) -/

/-- The loop `for (i…) enemyCars[i].active = false;` of the start / restart branch. -/
def clearCars (cars : Pool) : Pool :=
  slots.foldl (fun c i => Function.update c i { c i with active := false }) cars

/-- The "Start/Restart game" part of `processInput` (the two `if`s on `GLFW_KEY_SPACE`). -/
def startRestart (space : Bool) (l : KeyLatch) (g : Game) : KeyLatch × Game :=
  let s1 : KeyLatch × Game :=
    if space && !l.spacePressed then
      ({ l with spacePressed := true },
        if !g.gameStarted || g.gameOver then
          { g with
            gameStarted := true
            gameOver := false
            playerLane := 1
            enemyCars := clearCars g.enemyCars
            enemySpawnTimer := 0 }
        else g)
    else (l, g)
  (if !space then { s1.1 with spacePressed := false } else s1.1, s1.2)

/-- The two `if`s on `GLFW_KEY_A` inside the lane-changing block. -/
def leftKey (a : Bool) (l : KeyLatch) (g : Game) : KeyLatch × Game :=
  let s1 : KeyLatch × Game :=
    if a && !l.aPressed then
      ({ l with aPressed := true },
        if g.playerLane > 0 then { g with playerLane := g.playerLane - 1 } else g)
    else (l, g)
  (if !a then { s1.1 with aPressed := false } else s1.1, s1.2)

/-- The two `if`s on `GLFW_KEY_D` inside the lane-changing block. -/
def rightKey (d : Bool) (l : KeyLatch) (g : Game) : KeyLatch × Game :=
  let s1 : KeyLatch × Game :=
    if d && !l.dPressed then
      ({ l with dPressed := true },
        if g.playerLane < 2 then { g with playerLane := g.playerLane + 1 } else g)
    else (l, g)
  (if !d then { s1.1 with dPressed := false } else s1.1, s1.2)

/-- The "Lane changing" part of `processInput`, guarded by `gameStarted && !gameOver`. -/
def laneChanging (a d : Bool) (l : KeyLatch) (g : Game) : KeyLatch × Game :=
  if g.gameStarted && !g.gameOver then
    let s1 := leftKey a l g
    rightKey d s1.1 s1.2
  else (l, g)

/-- The function `processInput` (the escape key only closes the window and is omitted). -/
def processInput (k : Keys) (l : KeyLatch) (g : Game) : KeyLatch × Game :=
  let s1 := startRestart k.space l g
  laneChanging k.a k.d s1.1 s1.2

/-! ## Game logic block of the render loop -/

/-- The slot scan of the spawn block: the first inactive slot is filled from two draws of
`myRand` (lane, then speed) and the loop stops (`break`). Result: (pool, seed). -/
def spawnScan (cars : Pool) (seed : Nat) : List (Fin 10) → Pool × Nat
  | [] => (cars, seed)
  | i :: rest =>
    if !(cars i).active then
      let r1 := myRand seed
      let r2 := myRand r1.2
      (Function.update cars i
        { x := lanePositions ((r1.1 % 3 : Nat) : Int)
          y := 6/5
          speed := 1/2 + ((r2.1 % 50 : Nat) : ℚ) / 100
          active := true },
        r2.2)
    else spawnScan cars seed rest

/-- The "Spawn enemy cars" block in the exact reading: timer accumulation, and when the delay
is reached the slot scan, the timer reset and the redraw of the delay from a third draw of
`myRand`. The binary32 reading is `spawnBlockF`. -/
def spawnBlock (dt : ℚ) (g : Game) : Game :=
  let timer := g.enemySpawnTimer + dt
  if timer ≥ g.enemySpawnDelay then
    let sc := spawnScan g.enemyCars g.seed slots
    let r3 := myRand sc.2
    { g with
      enemyCars := sc.1
      seed := r3.2
      enemySpawnTimer := 0
      enemySpawnDelay := 3/2 + ((r3.1 % 100 : Nat) : ℚ) / 100 }
  else { g with enemySpawnTimer := timer }

/-- The body of the update loop for one slot, in the exact reading. The binary32 reading is
`updateCarF`. -/
def updateCar (dt : ℚ) (c : EnemyCar) : EnemyCar :=
  if c.active then
    let c1 : EnemyCar := { c with y := c.y - c.speed * dt }
    if c1.y < -6/5 then { c1 with active := false } else c1
  else c

/-- The "Update enemy cars" loop. -/
def updateCars (dt : ℚ) (cars : Pool) : Pool :=
  slots.foldl (fun c i => Function.update c i (updateCar dt (c i))) cars

/-- The "Check collisions" loop; the result is the value of `gameOver` after it. -/
def collisionScan (playerX : ℚ) (cars : Pool) (over : Bool) : List (Fin 10) → Bool
  | [] => over
  | i :: rest =>
    if (cars i).active &&
        checkCollision playerX playerY carWidth carHeight (cars i).x (cars i).y carWidth carHeight
    then true
    else collisionScan playerX cars over rest

/-- The "Game logic" block of the render loop. -/
def gameLogic (dt : ℚ) (g : Game) : Game :=
  if g.gameStarted && !g.gameOver then
    let g1 := spawnBlock dt g
    let g2 : Game := { g1 with enemyCars := updateCars dt g1.enemyCars }
    let playerX := lanePositions g2.playerLane
    { g2 with gameOver := collisionScan playerX g2.enemyCars g2.gameOver slots }
  else g

/-- One iteration of the render loop on the simulation state: `processInput`, then the game
logic with the frame's `deltaTime`. -/
def tick (k : Keys) (dt : ℚ) (s : KeyLatch × Game) : KeyLatch × Game :=
  let s1 := processInput k s.1 s.2
  (s1.1, gameLogic dt s1.2)

/-- The state when the render loop is entered: the global initialisers, the zero-initialised
array after the loop `enemyCars[i].active = false`, and the latches `false`. -/
def initial : KeyLatch × Game :=
  ({ spacePressed := false, aPressed := false, dPressed := false },
   { playerLane := 1
     enemyCars := fun _ => { x := 0, y := 0, speed := 0, active := false }
     enemySpawnTimer := 0
     enemySpawnDelay := 2
     gameOver := false
     gameStarted := false
     seed := 1 })

/-- The render loop run over a finite list of frames (keys, `deltaTime`), first frame first. -/
def run (frames : List (Keys × ℚ)) (s : KeyLatch × Game) : KeyLatch × Game :=
  frames.foldl (fun st f => tick f.1 f.2 st) s

/-- The game is in the `Running` phase. -/
def Running (g : Game) : Prop := g.gameStarted = true ∧ g.gameOver = false

instance (g : Game) : Decidable (Running g) := by unfold Running; infer_instance

/-- One spawn step on (pool, seed): the slot scan of the spawn block over all ten slots. -/
def spawnStep (p : Pool × Nat) : Pool × Nat := spawnScan p.1 p.2 slots

/-- The number of active slots of a pool. -/
def activeCount (cars : Pool) : Nat := slots.countP (fun i => (cars i).active)

/-- The start command fires in a frame: space is down and was not down in the frame before. -/
def startCommand (k : Keys) (l : KeyLatch) : Prop := k.space = true ∧ l.spacePressed = false

instance (k : Keys) (l : KeyLatch) : Decidable (startCommand k l) := by
  unfold startCommand; infer_instance

/-! ## The binary32 reading of the float operations

IEEE-754 single precision with round-to-nearest, ties-to-even, every operation rounded to
`float` on its own (no extended intermediate precision, no fused multiply-add). Overflow to
infinity is not represented: `toFloat` keeps the exponent unbounded above, so it agrees with
binary32 for results of magnitude below `2^128`. -/

/-- The quotient `a / b` of naturals rounded to the nearest natural, ties to even. -/
def roundHalfEven (a b : Nat) : Nat :=
  let q := a / b
  let r := a % b
  if 2 * r < b then q else if b < 2 * r then q + 1 else if q % 2 = 0 then q else q + 1

/-- The number of binary digits of `n`, by repeated halving; `fuel` bounds the number of
halvings, and `fuel = n` is always enough. -/
def bitLength : Nat → Nat → Nat
  | 0, _ => 0
  | fuel + 1, n => if n = 0 then 0 else bitLength fuel (n / 2) + 1

/-- The integer `e` with `2^e ≤ n / d < 2^(e+1)`, for positive `n` and `d`. -/
def floorLog2 (n d : Nat) : Int :=
  let e0 : Int := (bitLength n n : Int) - (bitLength d d : Int)
  if 0 ≤ e0 then (if d * 2 ^ e0.toNat ≤ n then e0 else e0 - 1)
  else (if d ≤ n * 2 ^ (-e0).toNat then e0 else e0 - 1)

/-- The binary32 value nearest to `n / d` (positive `n`, `d`) as a pair `(m, p)` standing for
`m / 2^p`: `p = 23 - e` where `e` is the binary exponent of `n / d`, not below the least normal
exponent `-126`, and `m` is `(n / d) * 2^p` rounded to an integer, ties to even. -/
def roundParts (n d : Nat) : Nat × Int :=
  let p : Int := 23 - max (floorLog2 n d) (-126)
  (if 0 ≤ p then roundHalfEven (n * 2 ^ p.toNat) d else roundHalfEven n (d * 2 ^ (-p).toNat), p)

/-- The rational `m / 2^p` for an integer `p`. -/
def scaleBack (m : Nat) (p : Int) : ℚ :=
  if 0 ≤ p then (m : ℚ) / 2 ^ p.toNat else (m : ℚ) * 2 ^ (-p).toNat

/-- Rounding of a rational to the nearest binary32 value, ties to even. -/
def toFloat (q : ℚ) : ℚ :=
  if q = 0 then 0
  else if q < 0 then
    - scaleBack (roundParts q.num.natAbs q.den).1 (roundParts q.num.natAbs q.den).2
  else scaleBack (roundParts q.num.natAbs q.den).1 (roundParts q.num.natAbs q.den).2

/-- The slot scan of the spawn block in the binary32 reading: `1.2f` is `toFloat (6/5)`, the
quotient `(myRand() % 50) / 100.0f` and the sum `0.5f + …` are each rounded; the lane positions
`-0.5f, 0.0f, 0.5f` are binary32 values. -/
def spawnScanF (cars : Pool) (seed : Nat) : List (Fin 10) → Pool × Nat
  | [] => (cars, seed)
  | i :: rest =>
    if !(cars i).active then
      let r1 := myRand seed
      let r2 := myRand r1.2
      (Function.update cars i
        { x := lanePositions ((r1.1 % 3 : Nat) : Int)
          y := toFloat (6/5)
          speed := toFloat (1/2 + toFloat (((r2.1 % 50 : Nat) : ℚ) / 100))
          active := true },
        r2.2)
    else spawnScanF cars seed rest

/-- The "Spawn enemy cars" block in the binary32 reading: the sum `enemySpawnTimer + deltaTime`
is rounded before it is stored and compared, and the new delay
`1.5f + (myRand() % 100) / 100.0f` is rounded twice (quotient, then sum). -/
def spawnBlockF (dt : ℚ) (g : Game) : Game :=
  let timer := toFloat (g.enemySpawnTimer + dt)
  if timer ≥ g.enemySpawnDelay then
    let sc := spawnScanF g.enemyCars g.seed slots
    let r3 := myRand sc.2
    { g with
      enemyCars := sc.1
      seed := r3.2
      enemySpawnTimer := 0
      enemySpawnDelay := toFloat (3/2 + toFloat (((r3.1 % 100 : Nat) : ℚ) / 100)) }
  else { g with enemySpawnTimer := timer }

/-- The body of the update loop for one slot in the binary32 reading: the product
`speed * deltaTime` and the difference are each rounded, and the new `y` is compared with the
literal `-1.2f`, which is `-(toFloat (6/5))`. -/
def updateCarF (dt : ℚ) (c : EnemyCar) : EnemyCar :=
  if c.active then
    let c1 : EnemyCar := { c with y := toFloat (c.y - toFloat (c.speed * dt)) }
    if c1.y < -(toFloat (6/5)) then { c1 with active := false } else c1
  else c

/-- The "Update enemy cars" loop in the binary32 reading. -/
def updateCarsF (dt : ℚ) (cars : Pool) : Pool :=
  slots.foldl (fun c i => Function.update c i (updateCarF dt (c i))) cars

/-- A running game with an empty pool whose spawn timer `10066331 / 2^25` (a binary32 value,
about `0.3`) is below the spawn delay `2` (a concrete input). -/
def nearDelayGame : Game :=
  { playerLane := 1
    enemyCars := fun _ => { x := 0, y := 0, speed := 0, active := false }
    enemySpawnTimer := 10066331/33554432
    enemySpawnDelay := 2
    gameOver := false
    gameStarted := true
    seed := 1 }

/-- The frame time `14260633 / 2^23` (a binary32 value, about `1.7`) used with `nearDelayGame`:
the exact sum with its timer is `2 - 2^(-25)`. -/
def nearDelayStep : ℚ := 14260633/8388608

/-- A pool whose slot `0` holds an active entity exactly at the binary32 value of `-1.2f`,
which is `-5033165 / 2^22` and lies strictly below `-6/5` (a concrete input). -/
def boundaryPool : Pool :=
  fun i => if i = 0 then { x := 1/2, y := -5033165/4194304, speed := 1/2, active := true }
    else { x := 0, y := 0, speed := 0, active := false }

/-- The frame time `8677871 / 2^21` (a binary32 value, about `4.14`) for which the entity
spawned in `freshSession` lands exactly on the binary32 value of `-1.2f`. -/
def boundaryStep : ℚ := 8677871/2097152

/-- The session right after the first start command: `processInput` with only space down,
applied to the initial state. It is `Running` with an empty pool, spawn timer `0`, spawn delay
`2`, lane `1` and seed `1`. -/
def freshSession : KeyLatch × Game :=
  processInput ⟨true, false, false⟩ initial.1 initial.2

/-- A pool whose ten slots are all active (used as a concrete input). -/
def fullPool : Pool := fun _ => { x := 0, y := 0, speed := 1/2, active := true }

/-- A pool with slots `0` and `1` active and the other eight free (a concrete input). -/
def twoActivePool : Pool :=
  fun i => { x := 0, y := 0, speed := 1/2, active := decide (i.val < 2) }

/-- A pool with one entity of speed `1/2` at spawn height in slot `0` (a concrete input). -/
def oneCarPool : Pool :=
  fun i => if i = 0 then { x := 1/2, y := 6/5, speed := 1/2, active := true }
    else { x := 0, y := 0, speed := 0, active := false }

/-- A running game with the player in the given lane and one entity on screen (a concrete
input). -/
def runningAt (lane : Int) : Game :=
  { playerLane := lane
    enemyCars := oneCarPool
    enemySpawnTimer := 1/2
    enemySpawnDelay := 2
    gameOver := false
    gameStarted := true
    seed := 1 }

/-- The game `runningAt 1` after a collision: started and over (a concrete input). -/
def overGame : Game := { runningAt 1 with gameOver := true }

/-- No key is down and no latch is set. -/
def noKeys : Keys := ⟨false, false, false⟩

/-- Ages for the active entities of a pool: `c i` is a time for which entity `i` has certainly
been falling. Every active entity has age at least `lo`, speed at least `1/2`, has travelled at
least `speed * age` from the spawn height `6/5`, has not passed `-6/5`, and any two active
entities differ in age by at least `3/2`. -/
def Aged (cars : Pool) (lo : ℚ) (c : Fin 10 → ℚ) : Prop :=
  ∀ i, (cars i).active = true →
    lo ≤ c i ∧ 1/2 ≤ (cars i).speed ∧ (cars i).speed * c i ≤ 6/5 - (cars i).y ∧
    -6/5 ≤ (cars i).y ∧
    ∀ j, (cars j).active = true → j ≠ i → 3/2 ≤ |c i - c j|

/-- The invariant behind the pool bound: the spawn delay is at least `3/2`, the spawn timer is
non-negative, and the active entities admit ages that are at least the spawn timer. -/
def PoolInv (g : Game) : Prop :=
  3/2 ≤ g.enemySpawnDelay ∧ 0 ≤ g.enemySpawnTimer ∧
    ∃ c : Fin 10 → ℚ, Aged g.enemyCars g.enemySpawnTimer c

/-! ## PRNG (C1) -/

/-- C1: for every 32-bit seed `s`, `myRand` sets the seed to `(s * 1103515245 + 12345) mod 2^32`
and returns `(newSeed / 65536) mod 32768`, a value in `[0, 32767]`; from seed `1` the first five
results are `16838, 5758, 10113, 17515, 31051`. -/
theorem myRand_contract :
    (∀ s : Nat, s < 2 ^ 32 →
      (myRand s).2 = (s * 1103515245 + 12345) % 2 ^ 32 ∧
      (myRand s).1 = ((myRand s).2 / 65536) % 32768 ∧
      (myRand s).1 ≤ 32767 ∧ (myRand s).2 < 2 ^ 32) ∧
    myRandSeq 5 1 = [16838, 5758, 10113, 17515, 31051] := by
  refine ⟨fun s _ => ⟨rfl, rfl, ?_, ?_⟩, by decide⟩
  · have : (nextSeed s / 65536) % 32768 < 32768 := Nat.mod_lt _ (by norm_num)
    simp only [myRand]; omega
  · exact Nat.mod_lt _ (by norm_num)

theorem myRand_contract_witness :
    (myRand 1).2 = (1 * 1103515245 + 12345) % 2 ^ 32 ∧
      (myRand 1).1 = ((myRand 1).2 / 65536) % 32768 ∧
      (myRand 1).1 ≤ 32767 ∧ (myRand 1).2 < 2 ^ 32 :=
  myRand_contract.1 1 (by norm_num)

/-! ## Loops over the ten slots -/

theorem mem_slots (i : Fin 10) : i ∈ slots := by
  revert i; decide

theorem slots_nodup : slots.Nodup := by decide

theorem slots_sorted : slots.Pairwise (· < ·) := by decide

/-- A loop that rewrites slot `i` from its own old value acts slot by slot. -/
theorem foldl_update_apply (f : EnemyCar → EnemyCar) (l : List (Fin 10)) (hl : l.Nodup)
    (cars : Pool) (j : Fin 10) :
    l.foldl (fun c i => Function.update c i (f (c i))) cars j
      = if j ∈ l then f (cars j) else cars j := by
  induction l generalizing cars with
  | nil => simp
  | cons i rest ih =>
    have hi : i ∉ rest := (List.nodup_cons.mp hl).1
    rw [List.foldl_cons, ih (List.nodup_cons.mp hl).2]
    by_cases hj : j = i
    · subst hj; simp [hi]
    · simp [hj, Function.update_noteq hj]

theorem clearCars_apply (cars : Pool) (j : Fin 10) :
    clearCars cars j = { cars j with active := false } := by
  unfold clearCars
  rw [foldl_update_apply (fun c => { c with active := false }) slots slots_nodup]
  simp [mem_slots]

theorem updateCars_apply (dt : ℚ) (cars : Pool) (j : Fin 10) :
    updateCars dt cars j = updateCar dt (cars j) := by
  unfold updateCars
  rw [foldl_update_apply (updateCar dt) slots slots_nodup]
  simp [mem_slots]

/-- The slot scan over a list whose slots are all active changes nothing. -/
theorem spawnScan_full (cars : Pool) (seed : Nat) (l : List (Fin 10))
    (h : ∀ i ∈ l, (cars i).active = true) : spawnScan cars seed l = (cars, seed) := by
  induction l with
  | nil => rfl
  | cons i rest ih =>
    have hi : (cars i).active = true := h i (List.mem_cons_self _ _)
    simp only [spawnScan, hi, Bool.not_true, Bool.false_eq_true, if_false]
    exact ih (fun j hj => h j (List.mem_cons_of_mem _ hj))

/-- The slot scan over an increasing list fills the inactive slot below which all are active. -/
theorem spawnScan_first (cars : Pool) (seed : Nat) (l : List (Fin 10))
    (hl : l.Pairwise (· < ·)) (i : Fin 10) (hi : i ∈ l) (hfree : (cars i).active = false)
    (hlow : ∀ j, j < i → (cars j).active = true) :
    spawnScan cars seed l =
      (Function.update cars i
        { x := lanePositions (((myRand seed).1 % 3 : Nat) : Int)
          y := 6/5
          speed := 1/2 + (((myRand (myRand seed).2).1 % 50 : Nat) : ℚ) / 100
          active := true },
        (myRand (myRand seed).2).2) := by
  induction l with
  | nil => simp at hi
  | cons a rest ih =>
    rcases List.mem_cons.mp hi with rfl | hmem
    · simp [spawnScan, hfree]
    · have hlt : a < i := (List.pairwise_cons.mp hl).1 i hmem
      have ha : (cars a).active = true := hlow a hlt
      simp only [spawnScan, ha, Bool.not_true, Bool.false_eq_true, if_false]
      exact ih (List.pairwise_cons.mp hl).2 hmem

/-- After `n ≤ 10` spawn steps on an empty pool exactly the slots below `n` are active. -/
theorem spawnStep_iterate_active (cars : Pool) (seed : Nat)
    (hempty : ∀ i, (cars i).active = false) (n : Nat) (hn : n ≤ 10) (i : Fin 10) :
    (((spawnStep^[n]) (cars, seed)).1 i).active = decide (i.val < n) := by
  induction n generalizing i with
  | zero => simp [hempty]
  | succ n ih =>
    have hn1 : n < 10 := hn
    rw [Function.iterate_succ_apply']
    set p := (spawnStep^[n]) (cars, seed) with hp
    have ihn := fun j => ih (Nat.le_of_lt hn1) j
    have hfree : (p.1 ⟨n, hn1⟩).active = false := by
      rw [ihn]; simp
    have hlow : ∀ j : Fin 10, j < ⟨n, hn1⟩ → (p.1 j).active = true := by
      intro j hj
      rw [ihn]; simpa using hj
    unfold spawnStep
    rw [spawnScan_first p.1 p.2 slots slots_sorted ⟨n, hn1⟩ (mem_slots _) hfree hlow]
    by_cases hin : i = ⟨n, hn1⟩
    · subst hin; simp
    · have hne : i.val ≠ n := fun h => hin (Fin.ext h)
      simp only [Function.update_noteq hin, ihn]
      by_cases hlt : i.val < n
      · simp [hlt, Nat.lt_succ_of_lt hlt]
      · have : ¬ i.val < n + 1 := by omega
        simp [hlt, this]

/-! ## Collision test (C2) -/

/-- C2: `checkCollision` returns true exactly when `|x1-x2| < (w1+w2)/2` and
`|y1-y2| < (h1+h2)/2`, strictly (for all rational arguments, in particular for non-negative
sizes); two squares of side `0.2` with equal `y` centred at `x = 0` and `x = 0.2` do not
collide, and centred at `x = 0` and `x = 0.19` they do. -/
theorem checkCollision_iff :
    (∀ x1 y1 w1 h1 x2 y2 w2 h2 : ℚ,
      checkCollision x1 y1 w1 h1 x2 y2 w2 h2 = true ↔
        |x1 - x2| < (w1 + w2) / 2 ∧ |y1 - y2| < (h1 + h2) / 2) ∧
    (∀ y : ℚ, checkCollision 0 y (1/5) (1/5) (1/5) y (1/5) (1/5) = false) ∧
    (∀ y : ℚ, checkCollision 0 y (1/5) (1/5) (19/100) y (1/5) (1/5) = true) := by
  refine ⟨?_, ?_, ?_⟩
  · intro x1 y1 w1 h1 x2 y2 w2 h2
    simp only [checkCollision, Bool.and_eq_true, decide_eq_true_eq, abs_lt]
    constructor
    · rintro ⟨⟨⟨h1, h2⟩, h3⟩, h4⟩
      refine ⟨⟨?_, ?_⟩, ?_, ?_⟩ <;> linarith
    · rintro ⟨⟨h1, h2⟩, h3, h4⟩
      refine ⟨⟨⟨?_, ?_⟩, ?_⟩, ?_⟩ <;> linarith
  · intro y
    simp only [checkCollision, Bool.and_eq_false_iff, decide_eq_false_iff_not]
    left; left; right
    norm_num
  · intro y
    simp only [checkCollision, Bool.and_eq_true, decide_eq_true_eq]
    refine ⟨⟨⟨?_, ?_⟩, ?_⟩, ?_⟩ <;> norm_num <;> linarith

/-! ## Spawn step (C3) -/

/-- C3: the slot scan of the spawn block activates the lowest-index inactive slot and leaves
every other slot unchanged; on a pool whose ten slots are all active it changes nothing; eleven
successive spawn steps on an empty pool leave exactly ten active slots, the eleventh changing
nothing. -/
theorem spawnScan_first_free (cars : Pool) (seed : Nat) :
    (∀ i : Fin 10, (cars i).active = false → (∀ j, j < i → (cars j).active = true) →
      ((spawnScan cars seed slots).1 i).active = true ∧
      ∀ j, j ≠ i → (spawnScan cars seed slots).1 j = cars j) ∧
    ((∀ i, (cars i).active = true) → spawnScan cars seed slots = (cars, seed)) ∧
    ((∀ i, (cars i).active = false) →
      activeCount ((spawnStep^[11]) (cars, seed)).1 = 10 ∧
      activeCount ((spawnStep^[10]) (cars, seed)).1 = 10 ∧
      (spawnStep^[11]) (cars, seed) = (spawnStep^[10]) (cars, seed)) := by
  refine ⟨?_, ?_, ?_⟩
  · intro i hfree hlow
    rw [spawnScan_first cars seed slots slots_sorted i (mem_slots i) hfree hlow]
    refine ⟨by simp, fun j hj => ?_⟩
    simp [Function.update_noteq hj]
  · intro hall
    exact spawnScan_full cars seed slots (fun i _ => hall i)
  · intro hempty
    have h10 : ∀ i, (((spawnStep^[10]) (cars, seed)).1 i).active = true := by
      intro i
      rw [spawnStep_iterate_active cars seed hempty 10 (le_refl _) i]
      simp
    have hstep : (spawnStep^[11]) (cars, seed) = (spawnStep^[10]) (cars, seed) := by
      rw [Function.iterate_succ_apply']
      exact spawnScan_full _ _ slots (fun i _ => h10 i)
    have hcount : activeCount ((spawnStep^[10]) (cars, seed)).1 = 10 := by
      unfold activeCount
      rw [List.countP_eq_length.mpr (fun i _ => h10 i)]
      rfl
    exact ⟨by rw [hstep]; exact hcount, hcount, hstep⟩

/-! ## Spawn event (C4) -/

/-- The game-logic block in the `Running` phase: spawn block, update loop, collision loop. -/
theorem gameLogic_running (dt : ℚ) (g : Game) (hrun : Running g) :
    gameLogic dt g =
      { spawnBlock dt g with
        enemyCars := updateCars dt (spawnBlock dt g).enemyCars
        gameOver := collisionScan (lanePositions (spawnBlock dt g).playerLane)
          (updateCars dt (spawnBlock dt g).enemyCars) (spawnBlock dt g).gameOver slots } := by
  obtain ⟨h1, h2⟩ := hrun
  simp [gameLogic, h1, h2]

/-- Outside the `Running` phase the game-logic block does nothing. -/
theorem gameLogic_idle (dt : ℚ) (g : Game) (hrun : ¬ Running g) : gameLogic dt g = g := by
  unfold Running at hrun
  unfold gameLogic
  rw [if_neg]
  intro h
  simp only [Bool.and_eq_true, Bool.not_eq_true'] at h
  exact hrun h

theorem spawnBlock_fire (dt : ℚ) (g : Game) (h : g.enemySpawnDelay ≤ g.enemySpawnTimer + dt) :
    spawnBlock dt g =
      { g with
        enemyCars := (spawnScan g.enemyCars g.seed slots).1
        seed := (myRand (spawnScan g.enemyCars g.seed slots).2).2
        enemySpawnTimer := 0
        enemySpawnDelay :=
          3/2 + (((myRand (spawnScan g.enemyCars g.seed slots).2).1 % 100 : Nat) : ℚ) / 100 } := by
  simp [spawnBlock, h]

theorem spawnBlock_wait (dt : ℚ) (g : Game) (h : g.enemySpawnTimer + dt < g.enemySpawnDelay) :
    spawnBlock dt g = { g with enemySpawnTimer := g.enemySpawnTimer + dt } := by
  simp [spawnBlock, not_le.mpr h]

theorem lanePositions_mod3 (r : Nat) :
    lanePositions ((r % 3 : Nat) : Int) = -1/2 ∨ lanePositions ((r % 3 : Nat) : Int) = 0 ∨
      lanePositions ((r % 3 : Nat) : Int) = 1/2 := by
  have h : r % 3 < 3 := Nat.mod_lt _ (by norm_num)
  interval_cases r % 3 <;> simp [lanePositions]

theorem updateCar_x (dt : ℚ) (c : EnemyCar) : (updateCar dt c).x = c.x := by
  simp only [updateCar]; split_ifs <;> rfl

theorem updateCar_speed (dt : ℚ) (c : EnemyCar) : (updateCar dt c).speed = c.speed := by
  simp only [updateCar]; split_ifs <;> rfl

theorem updateCar_active_imp (dt : ℚ) (c : EnemyCar) (h : (updateCar dt c).active = true) :
    c.active = true := by
  by_cases hc : c.active = true
  · exact hc
  · simp [updateCar, hc] at h

/-- A pool with a free slot has a lowest free slot. -/
theorem exists_lowest_free (cars : Pool) (h : ∃ j, (cars j).active = false) :
    ∃ i, (cars i).active = false ∧ ∀ j, j < i → (cars j).active = true := by
  classical
  obtain ⟨i0, hi0⟩ := h
  have hex : ∃ n : Nat, ∃ hn : n < 10, (cars ⟨n, hn⟩).active = false :=
    ⟨i0.val, i0.isLt, hi0⟩
  obtain ⟨hn, hfree⟩ := Nat.find_spec hex
  refine ⟨⟨Nat.find hex, hn⟩, hfree, fun j hj => ?_⟩
  by_contra hja
  exact Nat.find_min hex (show j.val < Nat.find hex from hj) ⟨j.isLt, by simpa using hja⟩

/-- C4 (as amended): under exact arithmetic (the exact reading of the float operations), in a
`Running` tick whose spawn event fires (`spawnTimer + deltaTime ≥ spawnDelay`) with a free slot,
three successive `myRand` outputs `r1, r2, r3` are consumed in the order lane, speed, delay: the
slot activated gets `x = lanePositions[r1 % 3]` (one of `-0.5, 0, 0.5`), `y = 1.2`,
`speed = 0.5 + (r2 % 50)/100`, the timer becomes `0`, the delay `1.5 + (r3 % 100)/100`, and the
seed is the one after the third draw; when the spawn event does not fire no output is consumed,
no slot is activated and the timer becomes `spawnTimer + deltaTime`. -/
theorem spawn_event (dt : ℚ) (g : Game) (hrun : Running g)
    (r1 r2 r3 s1 s2 s3 : Nat) (h1 : myRand g.seed = (r1, s1)) (h2 : myRand s1 = (r2, s2))
    (h3 : myRand s2 = (r3, s3)) :
    (g.enemySpawnDelay ≤ g.enemySpawnTimer + dt → (∃ j, (g.enemyCars j).active = false) →
      ∃ i : Fin 10, (g.enemyCars i).active = false ∧
        (∀ j, j < i → (g.enemyCars j).active = true) ∧
        (spawnBlock dt g).enemyCars i =
          { x := lanePositions ((r1 % 3 : Nat) : Int), y := 6/5,
            speed := 1/2 + ((r2 % 50 : Nat) : ℚ) / 100, active := true } ∧
        (lanePositions ((r1 % 3 : Nat) : Int) = -1/2 ∨ lanePositions ((r1 % 3 : Nat) : Int) = 0 ∨
          lanePositions ((r1 % 3 : Nat) : Int) = 1/2) ∧
        (∀ j, j ≠ i → (spawnBlock dt g).enemyCars j = g.enemyCars j) ∧
        (spawnBlock dt g).enemySpawnTimer = 0 ∧
        (spawnBlock dt g).enemySpawnDelay = 3/2 + ((r3 % 100 : Nat) : ℚ) / 100 ∧
        (spawnBlock dt g).seed = s3 ∧
        s3 = nextSeed (nextSeed (nextSeed g.seed)) ∧
        (gameLogic dt g).enemySpawnTimer = 0 ∧
        (gameLogic dt g).enemySpawnDelay = 3/2 + ((r3 % 100 : Nat) : ℚ) / 100 ∧
        (gameLogic dt g).seed = s3 ∧
        ((gameLogic dt g).enemyCars i).x = lanePositions ((r1 % 3 : Nat) : Int) ∧
        ((gameLogic dt g).enemyCars i).speed = 1/2 + ((r2 % 50 : Nat) : ℚ) / 100) ∧
    (g.enemySpawnTimer + dt < g.enemySpawnDelay →
      spawnBlock dt g = { g with enemySpawnTimer := g.enemySpawnTimer + dt } ∧
      (gameLogic dt g).seed = g.seed ∧
      (gameLogic dt g).enemySpawnTimer = g.enemySpawnTimer + dt ∧
      (gameLogic dt g).enemySpawnDelay = g.enemySpawnDelay ∧
      ∀ i, ((gameLogic dt g).enemyCars i).active = true → (g.enemyCars i).active = true) := by
  constructor
  · intro hfire hex
    obtain ⟨i, hfree, hlow⟩ := exists_lowest_free g.enemyCars hex
    have hscan := spawnScan_first g.enemyCars g.seed slots slots_sorted i (mem_slots i) hfree hlow
    rw [h1] at hscan
    simp only [h2] at hscan
    have hs3 : s3 = nextSeed (nextSeed (nextSeed g.seed)) := by
      have e1 : s1 = nextSeed g.seed := (congrArg Prod.snd h1).symm
      have e2 : s2 = nextSeed s1 := (congrArg Prod.snd h2).symm
      have e3 : s3 = nextSeed s2 := (congrArg Prod.snd h3).symm
      rw [e3, e2, e1]
    have hcar : (spawnBlock dt g).enemyCars i =
        { x := lanePositions ((r1 % 3 : Nat) : Int), y := 6/5,
          speed := 1/2 + ((r2 % 50 : Nat) : ℚ) / 100, active := true } := by
      rw [spawnBlock_fire dt g hfire, hscan]; simp
    refine ⟨i, hfree, hlow, hcar, lanePositions_mod3 r1, ?_, ?_, ?_, ?_, hs3,
      ?_, ?_, ?_, ?_, ?_⟩
    · intro j hj
      rw [spawnBlock_fire dt g hfire, hscan]
      simp [Function.update_noteq hj]
    · rw [spawnBlock_fire dt g hfire]
    · rw [spawnBlock_fire dt g hfire, hscan]; simp [h3]
    · rw [spawnBlock_fire dt g hfire, hscan]; simp [h3]
    · rw [gameLogic_running dt g hrun, spawnBlock_fire dt g hfire]
    · rw [gameLogic_running dt g hrun, spawnBlock_fire dt g hfire, hscan]; simp [h3]
    · rw [gameLogic_running dt g hrun, spawnBlock_fire dt g hfire, hscan]; simp [h3]
    · rw [gameLogic_running dt g hrun]
      simp only [updateCars_apply, updateCar_x, hcar]
    · rw [gameLogic_running dt g hrun]
      simp only [updateCars_apply, updateCar_speed, hcar]
  · intro hwait
    refine ⟨spawnBlock_wait dt g hwait, ?_, ?_, ?_, ?_⟩
    · rw [gameLogic_running dt g hrun, spawnBlock_wait dt g hwait]
    · rw [gameLogic_running dt g hrun, spawnBlock_wait dt g hwait]
    · rw [gameLogic_running dt g hrun, spawnBlock_wait dt g hwait]
    · intro i hi
      rw [gameLogic_running dt g hrun, spawnBlock_wait dt g hwait] at hi
      simp only [updateCars_apply] at hi
      exact updateCar_active_imp dt _ hi

/-! ## Update step (C5) -/

/-- C5 (as amended): under exact arithmetic (the exact reading of the float operations), the
update loop replaces the `y` of each active entity by `y - speed * deltaTime` and deactivates it
exactly when the new `y` is strictly below `-1.2`; `x` and `speed` of every entity
and all fields of inactive entities are unchanged. An active entity with speed `0.5` at
`y = 1.2` is at `y = -0.3` and active after `deltaTime = 3`, and at `y = -1.8` and inactive
after a further `deltaTime = 3`. -/
theorem updateCars_spec (dt : ℚ) (cars : Pool) (i : Fin 10) :
    ((cars i).active = true →
      (updateCars dt cars i).y = (cars i).y - (cars i).speed * dt ∧
      ((updateCars dt cars i).active = false ↔ (cars i).y - (cars i).speed * dt < -6/5)) ∧
    (updateCars dt cars i).x = (cars i).x ∧
    (updateCars dt cars i).speed = (cars i).speed ∧
    ((cars i).active = false → updateCars dt cars i = cars i) ∧
    ((cars i).active = true → (cars i).speed = 1/2 → (cars i).y = 6/5 →
      (updateCars 3 cars i).y = -3/10 ∧ (updateCars 3 cars i).active = true ∧
      (updateCars 3 (updateCars 3 cars) i).y = -9/5 ∧
      (updateCars 3 (updateCars 3 cars) i).active = false) := by
  simp only [updateCars_apply]
  refine ⟨?_, ?_, ?_, ?_, ?_⟩
  · intro ha
    by_cases hy : (cars i).y - (cars i).speed * dt < -6/5
    · simp [updateCar, ha, hy]
    · simp [updateCar, ha, hy]
  · exact updateCar_x dt _
  · exact updateCar_speed dt _
  · intro ha; simp [updateCar, ha]
  · intro ha hs hy
    have e1 : updateCar 3 (cars i) =
        { x := (cars i).x, y := -3/10, speed := 1/2, active := true } := by
      simp only [updateCar, ha, hs, hy, if_true]
      norm_num
    rw [e1]
    norm_num [updateCar]

/-! ## Input handling: lane clamp, frozen phases, restart (C6, C7, C8) -/

theorem not_running_iff (g : Game) :
    ¬ Running g ↔ (g.gameOver = true ∨ g.gameStarted = false) := by
  unfold Running
  cases g.gameOver <;> cases g.gameStarted <;> simp

theorem startRestart_no_command (k : Keys) (l : KeyLatch) (g : Game)
    (hno : ¬ startCommand k l) : (startRestart k.space l g).2 = g := by
  unfold startCommand at hno
  unfold startRestart
  have h : (k.space && !l.spacePressed) = false := by
    cases hk : k.space <;> cases hl : l.spacePressed <;> simp_all
  simp [h]

theorem startRestart_running (space : Bool) (l : KeyLatch) (g : Game) (hrun : Running g) :
    (startRestart space l g).2 = g := by
  obtain ⟨h1, h2⟩ := hrun
  unfold startRestart
  by_cases h : (space && !l.spacePressed) = true
  · simp [h, h1, h2]
  · simp [h]

theorem startRestart_command (l : KeyLatch) (g : Game) (hl : l.spacePressed = false)
    (hidle : ¬ Running g) :
    (startRestart true l g).2 =
      { g with
        gameStarted := true
        gameOver := false
        playerLane := 1
        enemyCars := clearCars g.enemyCars
        enemySpawnTimer := 0 } := by
  have h : (!g.gameStarted || g.gameOver) = true := by
    rcases (not_running_iff g).mp hidle with h | h <;> simp [h]
  simp [startRestart, hl, h]

theorem laneChanging_idle (a d : Bool) (l : KeyLatch) (g : Game) (hidle : ¬ Running g) :
    laneChanging a d l g = (l, g) := by
  unfold Running at hidle
  unfold laneChanging
  rw [if_neg]
  intro h
  simp only [Bool.and_eq_true, Bool.not_eq_true'] at h
  exact hidle h

theorem leftKey_released (l : KeyLatch) (g : Game) : (leftKey false l g).2 = g := by
  simp [leftKey]

theorem rightKey_released (l : KeyLatch) (g : Game) : (rightKey false l g).2 = g := by
  simp [rightKey]

theorem leftKey_lane (a : Bool) (l : KeyLatch) (g : Game)
    (h : 0 ≤ g.playerLane ∧ g.playerLane ≤ 2) :
    0 ≤ (leftKey a l g).2.playerLane ∧ (leftKey a l g).2.playerLane ≤ 2 := by
  unfold leftKey
  by_cases hc : (a && !l.aPressed) = true
  · by_cases hp : g.playerLane > 0
    · simp only [hc, hp, if_true]; constructor <;> omega
    · simp only [hc, hp, if_true, if_false]; exact h
  · simp only [hc, if_false]; exact h

theorem rightKey_lane (d : Bool) (l : KeyLatch) (g : Game)
    (h : 0 ≤ g.playerLane ∧ g.playerLane ≤ 2) :
    0 ≤ (rightKey d l g).2.playerLane ∧ (rightKey d l g).2.playerLane ≤ 2 := by
  unfold rightKey
  by_cases hc : (d && !l.dPressed) = true
  · by_cases hp : g.playerLane < 2
    · simp only [hc, hp, if_true]; constructor <;> omega
    · simp only [hc, hp, if_true, if_false]; exact h
  · simp only [hc, if_false]; exact h

theorem laneChanging_lane (a d : Bool) (l : KeyLatch) (g : Game)
    (h : 0 ≤ g.playerLane ∧ g.playerLane ≤ 2) :
    0 ≤ (laneChanging a d l g).2.playerLane ∧ (laneChanging a d l g).2.playerLane ≤ 2 := by
  unfold laneChanging
  split_ifs
  · exact rightKey_lane d _ _ (leftKey_lane a l g h)
  · exact h

theorem startRestart_lane (space : Bool) (l : KeyLatch) (g : Game)
    (h : 0 ≤ g.playerLane ∧ g.playerLane ≤ 2) :
    0 ≤ (startRestart space l g).2.playerLane ∧ (startRestart space l g).2.playerLane ≤ 2 := by
  unfold startRestart
  by_cases hc : (space && !l.spacePressed) = true
  · by_cases hp : (!g.gameStarted || g.gameOver) = true
    · simp [hc, hp]
    · simp only [hc, hp, if_true]; exact h
  · simp only [hc, if_false]; exact h

theorem spawnBlock_playerLane (dt : ℚ) (g : Game) :
    (spawnBlock dt g).playerLane = g.playerLane := by
  unfold spawnBlock; simp only []; split_ifs <;> rfl

theorem gameLogic_playerLane (dt : ℚ) (g : Game) :
    (gameLogic dt g).playerLane = g.playerLane := by
  by_cases hrun : Running g
  · rw [gameLogic_running dt g hrun]; exact spawnBlock_playerLane dt g
  · rw [gameLogic_idle dt g hrun]

theorem tick_lane (k : Keys) (dt : ℚ) (s : KeyLatch × Game)
    (h : 0 ≤ s.2.playerLane ∧ s.2.playerLane ≤ 2) :
    0 ≤ (tick k dt s).2.playerLane ∧ (tick k dt s).2.playerLane ≤ 2 := by
  unfold tick
  simp only [gameLogic_playerLane]
  unfold processInput
  exact laneChanging_lane _ _ _ _ (startRestart_lane _ _ _ h)

/-- A property kept by every frame holds after any run. -/
theorem run_invariant (P : KeyLatch × Game → Prop) (Q : ℚ → Prop)
    (hstep : ∀ k dt s, Q dt → P s → P (tick k dt s)) (frames : List (Keys × ℚ))
    (hQ : ∀ f ∈ frames, Q f.2) (s : KeyLatch × Game) (h0 : P s) : P (run frames s) := by
  induction frames generalizing s with
  | nil => exact h0
  | cons f rest ih =>
    unfold run
    rw [List.foldl_cons]
    exact ih (fun f' hf' => hQ f' (List.mem_cons_of_mem _ hf')) _
      (hstep f.1 f.2 s (hQ f (List.mem_cons_self _ _)) h0)

/-- C6: after every sequence of frames from the initial state the player lane is in `{0,1,2}`;
a move-left command while `Running` leaves lane `0` at `0` and otherwise lowers the lane by one,
a move-right command leaves lane `2` at `2` and otherwise raises it by one (no wraparound); while
the game is not started or is over the lane-changing block leaves the lane unchanged for any
keys, and so does a whole `processInput` call in which no start command fires. -/
theorem lane_clamp :
    (∀ frames : List (Keys × ℚ),
      0 ≤ (run frames initial).2.playerLane ∧ (run frames initial).2.playerLane ≤ 2) ∧
    (∀ (l : KeyLatch) (g : Game), Running g → l.aPressed = false →
      (g.playerLane = 0 → (processInput ⟨false, true, false⟩ l g).2.playerLane = 0) ∧
      (0 < g.playerLane →
        (processInput ⟨false, true, false⟩ l g).2.playerLane = g.playerLane - 1)) ∧
    (∀ (l : KeyLatch) (g : Game), Running g → l.dPressed = false →
      (g.playerLane = 2 → (processInput ⟨false, false, true⟩ l g).2.playerLane = 2) ∧
      (g.playerLane < 2 →
        (processInput ⟨false, false, true⟩ l g).2.playerLane = g.playerLane + 1)) ∧
    (∀ (a d : Bool) (l : KeyLatch) (g : Game), ¬ Running g →
      (laneChanging a d l g).2.playerLane = g.playerLane) ∧
    (∀ (k : Keys) (l : KeyLatch) (g : Game), ¬ Running g → ¬ startCommand k l →
      (processInput k l g).2.playerLane = g.playerLane) := by
  refine ⟨?_, ?_, ?_, ?_, ?_⟩
  · intro frames
    exact run_invariant (fun s => 0 ≤ s.2.playerLane ∧ s.2.playerLane ≤ 2) (fun _ => True)
      (fun k dt s _ h => tick_lane k dt s h) frames (fun _ _ => trivial) initial
      (by simp [initial])
  · intro l g hrun hl
    obtain ⟨h1, h2⟩ := hrun
    constructor
    · intro h0
      simp [processInput, startRestart, laneChanging, leftKey, rightKey, h1, h2, hl, h0]
    · intro hpos
      simp [processInput, startRestart, laneChanging, leftKey, rightKey, h1, h2, hl, hpos]
  · intro l g hrun hl
    obtain ⟨h1, h2⟩ := hrun
    constructor
    · intro h0
      simp [processInput, startRestart, laneChanging, leftKey, rightKey, h1, h2, hl, h0]
    · intro hlt
      simp [processInput, startRestart, laneChanging, leftKey, rightKey, h1, h2, hl, hlt]
  · intro a d l g hidle
    rw [laneChanging_idle a d l g hidle]
  · intro k l g hidle hno
    unfold processInput
    have hg := startRestart_no_command k l g hno
    rw [laneChanging_idle _ _ _ _ (by rw [hg]; exact hidle), hg]

/-- C7: in a state that is over, or not started, a frame with any `deltaTime` and no start
command leaves the whole game state (entities, spawn timer, spawn delay, seed, flags, lane)
unchanged; outside `started && !over` the game-logic block (spawning, update, collision) does
nothing. -/
theorem idle_frozen (k : Keys) (dt : ℚ) (l : KeyLatch) (g : Game)
    (hidle : g.gameOver = true ∨ g.gameStarted = false) (hno : ¬ startCommand k l) :
    (tick k dt (l, g)).2 = g ∧ gameLogic dt g = g := by
  have hnr : ¬ Running g := (not_running_iff g).mpr hidle
  have hg := startRestart_no_command k l g hno
  refine ⟨?_, gameLogic_idle dt g hnr⟩
  unfold tick processInput
  simp only []
  rw [laneChanging_idle _ _ _ _ (by rw [hg]; exact hnr), hg]
  exact gameLogic_idle dt g hnr

/-- C8: in a state that is over, or not started, the start command yields `started = true`,
`over = false`, all ten slots inactive, lane `1` and spawn timer `0`; in a `Running` state the
start command leaves the game state unchanged. -/
theorem restart_resets (l : KeyLatch) (g : Game) (hl : l.spacePressed = false) :
    ((g.gameOver = true ∨ g.gameStarted = false) →
      (startRestart true l g).2 = (processInput ⟨true, false, false⟩ l g).2 ∧
      (startRestart true l g).2.gameStarted = true ∧
      (startRestart true l g).2.gameOver = false ∧
      (∀ i, ((startRestart true l g).2.enemyCars i).active = false) ∧
      (startRestart true l g).2.playerLane = 1 ∧
      (startRestart true l g).2.enemySpawnTimer = 0) ∧
    (Running g →
      (startRestart true l g).2 = g ∧ (processInput ⟨true, false, false⟩ l g).2 = g) := by
  have hframe : (processInput ⟨true, false, false⟩ l g).2 = (startRestart true l g).2 := by
    unfold processInput laneChanging
    simp only []
    split_ifs
    · rw [rightKey_released, leftKey_released]
    · rfl
  constructor
  · intro hidle
    have hnr : ¬ Running g := (not_running_iff g).mpr hidle
    rw [hframe, startRestart_command l g hl hnr]
    refine ⟨rfl, rfl, rfl, fun i => ?_, rfl, rfl⟩
    simp [clearCars_apply]
  · intro hrun
    rw [hframe]
    exact ⟨startRestart_running true l g hrun, startRestart_running true l g hrun⟩

/-! ## First tick of a fresh session (C9) -/

theorem leftKey_eq (a : Bool) (l : KeyLatch) (g : Game) :
    (leftKey a l g).2 = { g with playerLane := (leftKey a l g).2.playerLane } := by
  unfold leftKey
  by_cases hc : (a && !l.aPressed) = true
  · by_cases hp : g.playerLane > 0
    · simp [hc, hp]
    · simp [hc, hp]
  · simp [hc]

theorem rightKey_eq (d : Bool) (l : KeyLatch) (g : Game) :
    (rightKey d l g).2 = { g with playerLane := (rightKey d l g).2.playerLane } := by
  unfold rightKey
  by_cases hc : (d && !l.dPressed) = true
  · by_cases hp : g.playerLane < 2
    · simp [hc, hp]
    · simp [hc, hp]
  · simp [hc]

/-- The lane-changing block touches no field of the game other than the lane. -/
theorem laneChanging_eq (a d : Bool) (l : KeyLatch) (g : Game) :
    (laneChanging a d l g).2 = { g with playerLane := (laneChanging a d l g).2.playerLane } := by
  unfold laneChanging
  split_ifs
  · simp only []
    rw [rightKey_eq, leftKey_eq]
  · rfl

theorem spawn_speed_bounds (n : Nat) :
    (1/2 : ℚ) ≤ 1/2 + ((n % 50 : Nat) : ℚ) / 100 ∧ 1/2 + ((n % 50 : Nat) : ℚ) / 100 ≤ 99/100 := by
  have h : n % 50 < 50 := Nat.mod_lt _ (by norm_num)
  have h1 : ((n % 50 : Nat) : ℚ) ≤ 49 := by exact_mod_cast Nat.lt_succ_iff.mp h
  have h0 : (0 : ℚ) ≤ ((n % 50 : Nat) : ℚ) := Nat.cast_nonneg _
  constructor <;> linarith

theorem freshSession_facts :
    Running freshSession.2 ∧ (∀ i, (freshSession.2.enemyCars i).active = false) ∧
      freshSession.2.enemySpawnTimer = 0 ∧ freshSession.2.enemySpawnDelay = 2 ∧
      freshSession.2.playerLane = 1 ∧ freshSession.2.seed = 1 := by
  refine ⟨?_, ?_, ?_, ?_, ?_, ?_⟩ <;>
    simp [freshSession, initial, processInput, startRestart, laneChanging, leftKey, rightKey,
      Running, clearCars_apply]

theorem updateCar_y (dt : ℚ) (c : EnemyCar) (h : c.active = true) :
    (updateCar dt c).y = c.y - c.speed * dt := by
  simp only [updateCar, h, if_true]; split_ifs <;> rfl

theorem updateCar_active_y (dt : ℚ) (c : EnemyCar) (h : (updateCar dt c).active = true) :
    -6/5 ≤ (updateCar dt c).y := by
  have hc := updateCar_active_imp dt c h
  by_cases hy : c.y - c.speed * dt < -6/5
  · simp [updateCar, hc, hy] at h
  · rw [updateCar_y dt c hc]; exact not_lt.mp hy

theorem Aged.weaken {cars : Pool} {lo lo1 : ℚ} {c : Fin 10 → ℚ} (h : Aged cars lo c)
    (hlo : lo1 ≤ lo) : Aged cars lo1 c := by
  intro i hi
  obtain ⟨h1, h2⟩ := h i hi
  exact ⟨le_trans hlo h1, h2⟩

/-- The update loop ages every surviving entity by `dt`. -/
theorem Aged.update {cars : Pool} {lo : ℚ} {c : Fin 10 → ℚ} (h : Aged cars lo c) (dt : ℚ) :
    Aged (updateCars dt cars) (lo + dt) (fun i => c i + dt) := by
  intro i hi
  rw [updateCars_apply] at hi
  have hact := updateCar_active_imp dt _ hi
  obtain ⟨h1, h2, h3, _, h5⟩ := h i hact
  have hy := updateCar_y dt (cars i) hact
  have hlow := updateCar_active_y dt (cars i) hi
  simp only [updateCars_apply, updateCar_speed]
  refine ⟨by linarith, h2, ?_, hlow, ?_⟩
  · rw [hy]; nlinarith
  · intro j hj hne
    have hactj := updateCar_active_imp dt _ hj
    have := h5 j hactj hne
    simpa using this

/-- Filling a free slot at spawn height, when the timer plus `dt` has reached a delay of at
least `3/2`: the new entity gets age `-dt`, to be aged to `0` by the update loop. -/
theorem Aged.spawn {cars : Pool} {timer delay dt : ℚ} {c : Fin 10 → ℚ} (h : Aged cars timer c)
    (hdt : 0 ≤ dt) (hdelay : 3/2 ≤ delay) (hfire : delay ≤ timer + dt)
    (i : Fin 10) (x speed : ℚ) (hspeed : 1/2 ≤ speed) :
    Aged (Function.update cars i { x := x, y := 6/5, speed := speed, active := true }) (-dt)
      (Function.update c i (-dt)) := by
  intro a ha
  by_cases hai : a = i
  · subst hai
    simp only [Function.update_same]
    refine ⟨le_refl _, hspeed, ?_, by norm_num, ?_⟩
    · have : 0 ≤ speed * dt := mul_nonneg (by linarith) hdt
      linarith
    · intro j hj hne
      rw [Function.update_noteq hne] at hj ⊢
      obtain ⟨h1, _⟩ := h j hj
      rw [abs_sub_comm, le_abs]
      left; linarith
  · rw [Function.update_noteq hai] at ha ⊢
    rw [Function.update_noteq hai]
    obtain ⟨h1, h2, h3, h4, h5⟩ := h a ha
    refine ⟨by linarith, h2, h3, h4, ?_⟩
    intro j hj hne
    by_cases hji : j = i
    · subst hji
      simp only [Function.update_same]
      rw [le_abs]
      left; linarith
    · rw [Function.update_noteq hji] at hj ⊢
      exact h5 j hj hne

/-- The slot scan either changes nothing or fills one slot with an entity at spawn height
whose speed is at least `1/2`. -/
theorem spawnScan_cases (cars : Pool) (seed : Nat) (l : List (Fin 10)) :
    (spawnScan cars seed l).1 = cars ∨
      ∃ (i : Fin 10) (x speed : ℚ), 1/2 ≤ speed ∧
        (spawnScan cars seed l).1 =
          Function.update cars i { x := x, y := 6/5, speed := speed, active := true } := by
  induction l with
  | nil => left; rfl
  | cons i rest ih =>
    by_cases hi : (cars i).active = true
    · simp only [spawnScan, hi, Bool.not_true, Bool.false_eq_true, if_false]
      exact ih
    · right
      refine ⟨i, lanePositions (((myRand seed).1 % 3 : Nat) : Int), _,
        (spawn_speed_bounds (myRand (myRand seed).2).1).1, ?_⟩
      simp [spawnScan, hi]

/-- The invariant only looks at the pool, the spawn timer and the spawn delay. -/
theorem PoolInv.congr {g g1 : Game} (h : PoolInv g) (hc : g1.enemyCars = g.enemyCars)
    (ht : g1.enemySpawnTimer = g.enemySpawnTimer) (hd : g1.enemySpawnDelay = g.enemySpawnDelay) :
    PoolInv g1 := by
  unfold PoolInv at h ⊢
  rw [hc, ht, hd]; exact h

theorem startRestart_poolInv (space : Bool) (l : KeyLatch) (g : Game) (h : PoolInv g) :
    PoolInv (startRestart space l g).2 := by
  unfold startRestart
  by_cases hc : (space && !l.spacePressed) = true
  · by_cases hp : (!g.gameStarted || g.gameOver) = true
    · simp only [hc, hp, if_true]
      refine ⟨h.1, le_refl _, fun _ => 0, ?_⟩
      intro i hi
      simp [clearCars_apply] at hi
    · simp only [hc, hp, if_true]; exact h
  · simp only [hc, if_false]; exact h

theorem processInput_poolInv (k : Keys) (l : KeyLatch) (g : Game) (h : PoolInv g) :
    PoolInv (processInput k l g).2 := by
  unfold processInput
  simp only []
  have h1 := startRestart_poolInv k.space l g h
  have he := laneChanging_eq k.a k.d (startRestart k.space l g).1 (startRestart k.space l g).2
  exact h1.congr (by rw [he]) (by rw [he]) (by rw [he])

theorem spawn_delay_bound (n : Nat) : (3/2 : ℚ) ≤ 3/2 + ((n % 100 : Nat) : ℚ) / 100 := by
  have h0 : (0 : ℚ) ≤ ((n % 100 : Nat) : ℚ) := Nat.cast_nonneg _
  linarith

theorem gameLogic_poolInv (dt : ℚ) (hdt : 0 ≤ dt) (g : Game) (h : PoolInv g) :
    PoolInv (gameLogic dt g) := by
  by_cases hrun : Running g
  swap
  · rw [gameLogic_idle dt g hrun]; exact h
  rw [gameLogic_running dt g hrun]
  obtain ⟨hdelay, htimer, c, hc⟩ := h
  by_cases hfire : g.enemySpawnDelay ≤ g.enemySpawnTimer + dt
  · rw [spawnBlock_fire dt g hfire]
    refine ⟨spawn_delay_bound _, le_refl _, ?_⟩
    simp only []
    rcases spawnScan_cases g.enemyCars g.seed slots with hsame | ⟨i, x, speed, hspeed, hnew⟩
    · rw [hsame]
      refine ⟨fun i => c i + dt, ?_⟩
      have := (hc.weaken (show -dt ≤ g.enemySpawnTimer by linarith)).update dt
      simpa using this
    · rw [hnew]
      refine ⟨fun a => Function.update c i (-dt) a + dt, ?_⟩
      have := (hc.spawn hdt hdelay hfire i x speed hspeed).update dt
      simpa using this
  · rw [spawnBlock_wait dt g (not_le.mp hfire)]
    refine ⟨hdelay, by simp only []; linarith, fun i => c i + dt, ?_⟩
    exact hc.update dt

theorem tick_poolInv (k : Keys) (dt : ℚ) (hdt : 0 ≤ dt) (s : KeyLatch × Game)
    (h : PoolInv s.2) : PoolInv (tick k dt s).2 := by
  unfold tick
  exact gameLogic_poolInv dt hdt _ (processInput_poolInv k s.1 s.2 h)

theorem initial_poolInv : PoolInv initial.2 := by
  refine ⟨by norm_num [initial], by norm_num [initial], fun _ => 0, ?_⟩
  intro i hi
  simp [initial] at hi

/-- Ages that are non-negative, bounded by the fall from `6/5` to `-6/5` at speed at least `1/2`
and pairwise `3/2` apart leave room for at most four active entities, so some slot is free. -/
theorem Aged.exists_free {cars : Pool} {lo : ℚ} {c : Fin 10 → ℚ} (h : Aged cars lo c)
    (hlo : 0 ≤ lo) : ∃ i, (cars i).active = false := by
  by_contra hnone
  have hall : ∀ i, (cars i).active = true := by
    intro i
    by_contra hi
    exact hnone ⟨i, by simpa using hi⟩
  have hpos : ∀ i, 0 ≤ c i := fun i => le_trans hlo (h i (hall i)).1
  have hbound : ∀ i, c i ≤ 24/5 := by
    intro i
    obtain ⟨_, h2, h3, h4, _⟩ := h i (hall i)
    nlinarith [hpos i]
  have hmaps : ∀ i ∈ (Finset.univ : Finset (Fin 10)), ⌊c i * (2/3)⌋₊ ∈ Finset.range 4 := by
    intro i _
    rw [Finset.mem_range, Nat.floor_lt (by have := hpos i; positivity)]
    have := hbound i
    norm_num; linarith
  obtain ⟨i, _, j, _, hne, hfl⟩ :=
    Finset.exists_ne_map_eq_of_card_lt_of_maps_to (by simp) hmaps
  have hsep := (h i (hall i)).2.2.2.2 j (hall j) (Ne.symm hne)
  have hi0 : (0 : ℚ) ≤ c i * (2/3) := by have := hpos i; positivity
  have hj0 : (0 : ℚ) ≤ c j * (2/3) := by have := hpos j; positivity
  have hi1 := Nat.floor_le hi0
  have hi2 := Nat.lt_floor_add_one (c i * (2/3))
  have hj1 := Nat.floor_le hj0
  have hj2 := Nat.lt_floor_add_one (c j * (2/3))
  rw [hfl] at hi1 hi2
  have : |c i - c j| < 3/2 := by
    rw [abs_lt]; constructor <;> linarith
  linarith

/-- C10: in every state reached from the initial state by frames with `deltaTime ≥ 0` and
arbitrary keys, the spawn delay is at least `1.5`, every active entity has speed at least `0.5`
and has not passed `-1.2`, and whenever the spawn event of the next frame fires (the game is
`Running` after `processInput` and `spawnTimer + deltaTime ≥ spawnDelay`) some slot is inactive
and is activated by the spawn block: the pool-full branch is never taken. -/
theorem pool_never_full (frames : List (Keys × ℚ)) (hframes : ∀ f ∈ frames, 0 ≤ f.2) :
    3/2 ≤ (run frames initial).2.enemySpawnDelay ∧
    (∀ i, ((run frames initial).2.enemyCars i).active = true →
      1/2 ≤ ((run frames initial).2.enemyCars i).speed ∧
      -6/5 ≤ ((run frames initial).2.enemyCars i).y) ∧
    ∀ (k : Keys) (dt : ℚ),
      Running (processInput k (run frames initial).1 (run frames initial).2).2 →
      (processInput k (run frames initial).1 (run frames initial).2).2.enemySpawnDelay ≤
        (processInput k (run frames initial).1 (run frames initial).2).2.enemySpawnTimer + dt →
      ∃ i,
        ((processInput k (run frames initial).1 (run frames initial).2).2.enemyCars i).active
          = false ∧
        ((spawnBlock dt
          (processInput k (run frames initial).1 (run frames initial).2).2).enemyCars i).active
          = true := by
  have hinv : PoolInv (run frames initial).2 :=
    run_invariant (fun s => PoolInv s.2) (fun dt => 0 ≤ dt)
      (fun k dt s hdt h => tick_poolInv k dt hdt s h) frames hframes initial initial_poolInv
  refine ⟨hinv.1, ?_, ?_⟩
  · obtain ⟨_, _, c, hc⟩ := hinv
    intro i hi
    exact ⟨(hc i hi).2.1, (hc i hi).2.2.2.1⟩
  · intro k dt _ hfire
    obtain ⟨_, htimer, c, hc⟩ := processInput_poolInv k (run frames initial).1
      (run frames initial).2 hinv
    set g1 := (processInput k (run frames initial).1 (run frames initial).2).2
    obtain ⟨i, hfree, hlow⟩ := exists_lowest_free g1.enemyCars (hc.exists_free htimer)
    refine ⟨i, hfree, ?_⟩
    rw [spawnBlock_fire dt g1 hfire]
    simp only []
    rw [spawnScan_first g1.enemyCars g1.seed slots slots_sorted i (mem_slots _) hfree hlow]
    simp

/-! ## The binary32 reading (C4 and C5 as stated) -/

theorem toFloat_zero : toFloat 0 = 0 := by simp [toFloat]

theorem toFloat_six_fifths : toFloat (6/5) = 5033165/4194304 := by
  have h : roundParts 6 5 = (10066330, 23) := by decide
  norm_num [toFloat, h, scaleBack, Int.toNat]

theorem toFloat_neg_bound : toFloat (-5033165/4194304) = -5033165/4194304 := by
  have h : roundParts 5033165 4194304 = (10066330, 23) := by decide
  norm_num [toFloat, h, scaleBack, Int.toNat]

theorem toFloat_near_two : toFloat (67108863/33554432) = 2 := by
  have h : roundParts 67108863 33554432 = (16777216, 23) := by decide
  norm_num [toFloat, h, scaleBack, Int.toNat]

theorem toFloat_nearDelay_timer : toFloat (10066331/33554432) = 10066331/33554432 := by
  have h : roundParts 10066331 33554432 = (10066331, 25) := by decide
  norm_num [toFloat, h, scaleBack, Int.toNat]

theorem toFloat_nearDelayStep : toFloat (14260633/8388608) = 14260633/8388608 := by
  have h : roundParts 14260633 8388608 = (14260633, 23) := by decide
  norm_num [toFloat, h, scaleBack, Int.toNat]

theorem toFloat_thirteen_hundredths : toFloat (13/100) = 1090519/8388608 := by
  have h : roundParts 13 100 = (8724152, 26) := by decide
  norm_num [toFloat, h, scaleBack, Int.toNat]

theorem toFloat_delay_value : toFloat (13673431/8388608) = 13673431/8388608 := by
  have h : roundParts 13673431 8388608 = (13673431, 23) := by decide
  norm_num [toFloat, h, scaleBack, Int.toNat]

theorem toFloat_boundaryStep : toFloat (8677871/2097152) = 8677871/2097152 := by
  have h : roundParts 8677871 2097152 = (8677871, 21) := by decide
  norm_num [toFloat, h, scaleBack, Int.toNat]

theorem toFloat_two_twentyfifths : toFloat (2/25) = 5368709/67108864 := by
  have h : roundParts 2 25 = (10737418, 27) := by decide
  norm_num [toFloat, h, scaleBack, Int.toNat]

theorem toFloat_spawn_speed : toFloat (38923141/67108864) = 9730785/16777216 := by
  have h : roundParts 38923141 67108864 = (9730785, 24) := by decide
  norm_num [toFloat, h, scaleBack, Int.toNat]

theorem toFloat_fall : toFloat (84442496958735/35184372088832) = 5033165/2097152 := by
  have h : roundParts 84442496958735 35184372088832 = (10066330, 22) := by decide
  norm_num [toFloat, h, scaleBack, Int.toNat]

/-- The pool written by the binary32 spawn block in the first frame of `freshSession` when the
frame time is `boundaryStep`: slot `0` holds the new entity at `1.2f` with speed `0.58f`. -/
theorem spawnBlockF_fresh :
    (spawnBlockF boundaryStep freshSession.2).enemyCars =
      Function.update freshSession.2.enemyCars 0
        { x := 1/2, y := 5033165/4194304, speed := 9730785/16777216, active := true } := by
  obtain ⟨_, hempty, htimer, hdelay, _, hseed⟩ := freshSession_facts
  have hfire : toFloat (freshSession.2.enemySpawnTimer + boundaryStep) = 8677871/2097152 := by
    rw [htimer, zero_add]; exact toFloat_boundaryStep
  have hr1 : (myRand 1).1 % 3 = 2 := by decide
  have hr2 : (myRand (myRand 1).2).1 % 50 = 8 := by decide
  have hscan : spawnScanF freshSession.2.enemyCars 1 slots =
      (Function.update freshSession.2.enemyCars 0
        { x := 1/2, y := 5033165/4194304, speed := 9730785/16777216, active := true },
        (myRand (myRand 1).2).2) := by
    have e1 : ((8 : Nat) : ℚ) / 100 = 2/25 := by norm_num
    have e2 : (1/2 + 5368709/67108864 : ℚ) = 38923141/67108864 := by norm_num
    simp only [spawnScanF, slots, hempty 0, Bool.not_false, if_true, hr1, hr2, e1,
      toFloat_two_twentyfifths, e2, toFloat_spawn_speed, toFloat_six_fifths]
    norm_num [lanePositions]
  unfold spawnBlockF
  simp only [hfire, hdelay, hseed, hscan]
  norm_num

theorem updateCarsF_apply (dt : ℚ) (cars : Pool) (j : Fin 10) :
    updateCarsF dt cars j = updateCarF dt (cars j) := by
  unfold updateCarsF
  rw [foldl_update_apply (updateCarF dt) slots slots_nodup]
  simp [mem_slots]

theorem spawnBlockF_nearDelay :
    spawnBlockF nearDelayStep nearDelayGame =
      { nearDelayGame with
        enemyCars := (spawnScanF nearDelayGame.enemyCars 1 slots).1
        seed := (myRand (spawnScanF nearDelayGame.enemyCars 1 slots).2).2
        enemySpawnTimer := 0
        enemySpawnDelay := toFloat (3/2 +
          toFloat ((((myRand (spawnScanF nearDelayGame.enemyCars 1 slots).2).1 % 100 : Nat) : ℚ)
            / 100)) } := by
  have hsum : toFloat (nearDelayGame.enemySpawnTimer + nearDelayStep) = 2 := by
    have e : nearDelayGame.enemySpawnTimer + nearDelayStep = 67108863/33554432 := by
      norm_num [nearDelayGame, nearDelayStep]
    rw [e, toFloat_near_two]
  have hdelay : nearDelayGame.enemySpawnDelay = 2 := rfl
  have hseed : nearDelayGame.seed = 1 := rfl
  unfold spawnBlockF
  simp only [hsum, hdelay, hseed, ge_iff_le, le_refl, if_true]

/-- C4 (as stated) fails on the binary32 program: in the `Running` state `nearDelayGame` (empty
pool, timer `10066331 / 2^25`, delay `2`, seed `1`) with `deltaTime = 14260633 / 2^23`, both
binary32 values, the exact sum `spawnTimer + deltaTime` is below `spawnDelay`, but the float sum
rounds to `2.0`, so the spawn block fires: three outputs are consumed (the seed becomes
`662824084`), slot `0` is activated and the timer becomes `0`, not `spawnTimer + deltaTime`.
The delay stored by that spawn (third output `10113`) is the binary32 value `13673431 / 2^23`,
not `1.5 + 13/100`. -/
theorem spawn_wait_counterexample :
    Running nearDelayGame ∧
    toFloat nearDelayGame.enemySpawnTimer = nearDelayGame.enemySpawnTimer ∧
    toFloat nearDelayStep = nearDelayStep ∧
    nearDelayGame.enemySpawnTimer + nearDelayStep < nearDelayGame.enemySpawnDelay ∧
    (spawnBlockF nearDelayStep nearDelayGame).seed = 662824084 ∧
    (spawnBlockF nearDelayStep nearDelayGame).seed ≠ nearDelayGame.seed ∧
    (nearDelayGame.enemyCars 0).active = false ∧
    ((spawnBlockF nearDelayStep nearDelayGame).enemyCars 0).active = true ∧
    (spawnBlockF nearDelayStep nearDelayGame).enemySpawnTimer = 0 ∧
    (spawnBlockF nearDelayStep nearDelayGame).enemySpawnTimer
      ≠ nearDelayGame.enemySpawnTimer + nearDelayStep ∧
    (myRand (myRand (myRand nearDelayGame.seed).2).2).1 = 10113 ∧
    (spawnBlockF nearDelayStep nearDelayGame).enemySpawnDelay = 13673431/8388608 ∧
    (spawnBlockF nearDelayStep nearDelayGame).enemySpawnDelay
      ≠ 3/2 + ((10113 % 100 : Nat) : ℚ) / 100 := by
  have hscan : spawnScanF nearDelayGame.enemyCars 1 slots =
      (Function.update nearDelayGame.enemyCars 0
        { x := lanePositions (((myRand 1).1 % 3 : Nat) : Int)
          y := toFloat (6/5)
          speed := toFloat (1/2 + toFloat ((((myRand (myRand 1).2).1 % 50 : Nat) : ℚ) / 100))
          active := true },
        (myRand (myRand 1).2).2) := by
    simp [spawnScanF, slots, nearDelayGame]
  have hseed3 : (myRand (myRand (myRand 1).2).2).2 = 662824084 := by decide
  have hr3 : (myRand (myRand (myRand 1).2).2).1 = 10113 := by decide
  have hdelay : (spawnBlockF nearDelayStep nearDelayGame).enemySpawnDelay
      = 13673431/8388608 := by
    rw [spawnBlockF_nearDelay, hscan]
    simp only [hr3]
    have e1 : (((10113 % 100 : Nat) : ℚ) / 100) = 13/100 := by norm_num
    have e2 : (3/2 + 1090519/8388608 : ℚ) = 13673431/8388608 := by norm_num
    rw [e1, toFloat_thirteen_hundredths, e2, toFloat_delay_value]
  refine ⟨⟨rfl, rfl⟩, toFloat_nearDelay_timer, toFloat_nearDelayStep, ?_, ?_, ?_, rfl, ?_, ?_, ?_,
    hr3, hdelay, ?_⟩
  · norm_num [nearDelayGame, nearDelayStep]
  · rw [spawnBlockF_nearDelay, hscan]; exact hseed3
  · rw [spawnBlockF_nearDelay, hscan]
    show (myRand (myRand (myRand 1).2).2).2 ≠ 1
    rw [hseed3]; decide
  · rw [spawnBlockF_nearDelay, hscan]; simp
  · rw [spawnBlockF_nearDelay]
  · rw [spawnBlockF_nearDelay]
    norm_num [nearDelayGame, nearDelayStep]
  · rw [hdelay]; norm_num

/-- C5 (as stated) fails on the binary32 program: in `boundaryPool` the active entity of slot
`0` is at the binary32 value `-5033165 / 2^22` of `-1.2f`; with `deltaTime = 0` the update loop
leaves its `y` at `y - speed * deltaTime`, which is strictly below `-1.2`, and yet does not
deactivate it, because the comparison is against `-1.2f` itself. The same happens on a state
the program reaches: in the first frame of `freshSession` with `deltaTime = boundaryStep` the
spawn block writes an entity at `1.2f` with speed `0.58f`, for which `y - speed * deltaTime` is
strictly below `-1.2`, and the update loop of that frame leaves it active at `-1.2f`. -/
theorem update_boundary_counterexample :
    ((boundaryPool 0).active = true ∧
      toFloat (boundaryPool 0).y = (boundaryPool 0).y ∧
      (updateCarsF 0 boundaryPool 0).y = (boundaryPool 0).y - (boundaryPool 0).speed * 0 ∧
      (updateCarsF 0 boundaryPool 0).y < -6/5 ∧
      (updateCarsF 0 boundaryPool 0).active = true) ∧
    ((spawnBlockF boundaryStep freshSession.2).enemyCars 0 =
        { x := 1/2, y := 5033165/4194304, speed := 9730785/16777216, active := true } ∧
      5033165/4194304 - 9730785/16777216 * boundaryStep < (-6/5 : ℚ) ∧
      updateCarsF boundaryStep (spawnBlockF boundaryStep freshSession.2).enemyCars 0 =
        { x := 1/2, y := -5033165/4194304, speed := 9730785/16777216, active := true }) := by
  refine ⟨?_, ?_⟩
  swap
  · have e1 : (9730785/16777216 * (8677871/2097152) : ℚ) = 84442496958735/35184372088832 := by
      norm_num
    have e2 : (5033165/4194304 - 5033165/2097152 : ℚ) = -5033165/4194304 := by norm_num
    refine ⟨by rw [spawnBlockF_fresh]; simp, by norm_num [boundaryStep], ?_⟩
    rw [updateCarsF_apply, spawnBlockF_fresh]
    simp only [Function.update_same, updateCarF, if_true, boundaryStep, e1, toFloat_fall, e2,
      toFloat_neg_bound, toFloat_six_fifths]
    norm_num
  have hcar : boundaryPool 0 =
      { x := 1/2, y := -5033165/4194304, speed := 1/2, active := true } := by
    simp [boundaryPool]
  have hupd : updateCarsF 0 boundaryPool 0 =
      { x := 1/2, y := -5033165/4194304, speed := 1/2, active := true } := by
    rw [updateCarsF_apply, hcar]
    simp only [updateCarF, if_true, mul_zero, toFloat_zero, sub_zero, toFloat_neg_bound,
      toFloat_six_fifths]
    norm_num
  rw [hupd, hcar]
  refine ⟨rfl, toFloat_neg_bound, ?_, ?_, rfl⟩ <;> norm_num

/-! ## Concrete instances -/

theorem spawnScan_first_free_witness :
    (((spawnScan twoActivePool 1 slots).1 2).active = true ∧
      ∀ j, j ≠ 2 → (spawnScan twoActivePool 1 slots).1 j = twoActivePool j) ∧
    spawnScan fullPool 1 slots = (fullPool, 1) ∧
    (activeCount ((spawnStep^[11]) (initial.2.enemyCars, 1)).1 = 10 ∧
      activeCount ((spawnStep^[10]) (initial.2.enemyCars, 1)).1 = 10 ∧
      (spawnStep^[11]) (initial.2.enemyCars, 1) = (spawnStep^[10]) (initial.2.enemyCars, 1)) :=
  ⟨(spawnScan_first_free twoActivePool 1).1 2 (by decide) (by decide),
    (spawnScan_first_free fullPool 1).2.1 (fun _ => rfl),
    (spawnScan_first_free initial.2.enemyCars 1).2.2 (fun _ => rfl)⟩

theorem spawn_event_witness :
    (∃ i : Fin 10, (freshSession.2.enemyCars i).active = false ∧
      (spawnBlock 2 freshSession.2).enemyCars i =
        { x := lanePositions ((16838 % 3 : Nat) : Int), y := 6/5,
          speed := 1/2 + ((5758 % 50 : Nat) : ℚ) / 100, active := true } ∧
      (spawnBlock 2 freshSession.2).enemySpawnDelay = 3/2 + ((10113 % 100 : Nat) : ℚ) / 100 ∧
      (spawnBlock 2 freshSession.2).seed = 662824084) ∧
    (gameLogic 1 freshSession.2).seed = freshSession.2.seed ∧
    (gameLogic 1 freshSession.2).enemySpawnTimer = freshSession.2.enemySpawnTimer + 1 :=
  ⟨Exists.elim
      ((spawn_event 2 freshSession.2 freshSession_facts.1 16838 5758 10113 1103527590 2524885223
        662824084 (by rw [freshSession_facts.2.2.2.2.2]; rfl) rfl rfl).1
        (by rw [freshSession_facts.2.2.1, freshSession_facts.2.2.2.1]; norm_num)
        ⟨0, freshSession_facts.2.1 0⟩)
      (fun i h => ⟨i, h.1, h.2.2.1, h.2.2.2.2.2.2.1, h.2.2.2.2.2.2.2.1⟩),
    ((spawn_event 1 freshSession.2 freshSession_facts.1 16838 5758 10113 1103527590 2524885223
      662824084 (by rw [freshSession_facts.2.2.2.2.2]; rfl) rfl rfl).2
      (by rw [freshSession_facts.2.2.1, freshSession_facts.2.2.2.1]; norm_num)).2.1,
    ((spawn_event 1 freshSession.2 freshSession_facts.1 16838 5758 10113 1103527590 2524885223
      662824084 (by rw [freshSession_facts.2.2.2.2.2]; rfl) rfl rfl).2
      (by rw [freshSession_facts.2.2.1, freshSession_facts.2.2.2.1]; norm_num)).2.2.1⟩

theorem updateCars_spec_witness :
    ((updateCars 3 oneCarPool 0).y = (oneCarPool 0).y - (oneCarPool 0).speed * 3 ∧
      ((updateCars 3 oneCarPool 0).active = false ↔
        (oneCarPool 0).y - (oneCarPool 0).speed * 3 < -6/5)) ∧
    updateCars 3 oneCarPool 1 = oneCarPool 1 ∧
    ((updateCars 3 oneCarPool 0).y = -3/10 ∧ (updateCars 3 oneCarPool 0).active = true ∧
      (updateCars 3 (updateCars 3 oneCarPool) 0).y = -9/5 ∧
      (updateCars 3 (updateCars 3 oneCarPool) 0).active = false) :=
  ⟨(updateCars_spec 3 oneCarPool 0).1 (by simp [oneCarPool]),
    (updateCars_spec 3 oneCarPool 1).2.2.2.1 (by simp [oneCarPool]),
    (updateCars_spec 3 oneCarPool 0).2.2.2.2 (by simp [oneCarPool]) (by simp [oneCarPool])
      (by simp [oneCarPool])⟩

theorem lane_clamp_witness :
    (processInput ⟨false, true, false⟩ initial.1 (runningAt 0)).2.playerLane = 0 ∧
    (processInput ⟨false, true, false⟩ initial.1 (runningAt 2)).2.playerLane
      = (runningAt 2).playerLane - 1 ∧
    (processInput ⟨false, false, true⟩ initial.1 (runningAt 2)).2.playerLane = 2 ∧
    (processInput ⟨false, false, true⟩ initial.1 (runningAt 0)).2.playerLane
      = (runningAt 0).playerLane + 1 ∧
    (laneChanging true true initial.1 overGame).2.playerLane = overGame.playerLane ∧
    (processInput ⟨false, true, true⟩ initial.1 overGame).2.playerLane = overGame.playerLane :=
  ⟨(lane_clamp.2.1 initial.1 (runningAt 0) ⟨rfl, rfl⟩ rfl).1 rfl,
    (lane_clamp.2.1 initial.1 (runningAt 2) ⟨rfl, rfl⟩ rfl).2 (by decide),
    (lane_clamp.2.2.1 initial.1 (runningAt 2) ⟨rfl, rfl⟩ rfl).1 rfl,
    (lane_clamp.2.2.1 initial.1 (runningAt 0) ⟨rfl, rfl⟩ rfl).2 (by decide),
    lane_clamp.2.2.2.1 true true initial.1 overGame (by simp [Running, overGame]),
    lane_clamp.2.2.2.2 ⟨false, true, true⟩ initial.1 overGame (by simp [Running, overGame])
      (by simp [startCommand])⟩

theorem idle_frozen_witness :
    (tick ⟨false, true, true⟩ 1 (initial.1, overGame)).2 = overGame ∧
      gameLogic 1 overGame = overGame :=
  idle_frozen ⟨false, true, true⟩ 1 initial.1 overGame (Or.inl rfl) (by simp [startCommand])

theorem restart_resets_witness :
    ((startRestart true initial.1 overGame).2
        = (processInput ⟨true, false, false⟩ initial.1 overGame).2 ∧
      (startRestart true initial.1 overGame).2.gameStarted = true ∧
      (startRestart true initial.1 overGame).2.gameOver = false ∧
      (∀ i, ((startRestart true initial.1 overGame).2.enemyCars i).active = false) ∧
      (startRestart true initial.1 overGame).2.playerLane = 1 ∧
      (startRestart true initial.1 overGame).2.enemySpawnTimer = 0) ∧
    ((startRestart true initial.1 (runningAt 2)).2 = runningAt 2 ∧
      (processInput ⟨true, false, false⟩ initial.1 (runningAt 2)).2 = runningAt 2) :=
  ⟨(restart_resets initial.1 overGame rfl).1 (Or.inl rfl),
    (restart_resets initial.1 (runningAt 2) rfl).2 ⟨rfl, rfl⟩⟩

theorem run_idle_frame : run [(noKeys, 1)] initial = initial := by
  simp [run, tick, noKeys, initial, processInput, startRestart, laneChanging, gameLogic]

theorem pool_never_full_witness :
    ∃ i,
      ((processInput ⟨true, false, false⟩ (run [(noKeys, 1)] initial).1
        (run [(noKeys, 1)] initial).2).2.enemyCars i).active = false ∧
      ((spawnBlock 2 (processInput ⟨true, false, false⟩ (run [(noKeys, 1)] initial).1
        (run [(noKeys, 1)] initial).2).2).enemyCars i).active = true :=
  (pool_never_full [(noKeys, 1)] (by simp)).2.2 ⟨true, false, false⟩ 2
    (by rw [run_idle_frame]; exact freshSession_facts.1)
    (by
      rw [run_idle_frame]
      have h1 := freshSession_facts.2.2.1
      have h2 := freshSession_facts.2.2.2.1
      unfold freshSession at h1 h2
      rw [h1, h2]; norm_num)

end CarLaneGame
